import Mathlib

/-!
# AdminDashboard page (src/pages/AdminDashboard.js)

A shallow embedding of the admin dashboard component: the JavaScript values
that reach the page from parsed JSON bodies, the component state, the effects a
handler issues (HTTP requests, navigation, timers, console and alert output),
and each handler as a function from the backend's answers and the current
state to the next state and the effects issued.

Conventions of the embedding:
* an `await`ed axios call is answered by the `Backend`, whose three fields give
  the answer to every GET, POST and DELETE url during one handler run; a
  loader is its request followed by its continuation (`...Resume`), and where
  several loaders are started without `await` (the mount effect) all requests
  are issued first and the continuations run afterwards, in the order the
  requests were issued;
* a thrown JavaScript exception is an `Except.error`, and a `try`/`catch` is a
  match on it;
* strings are sequences of characters; the user filter takes the lower-casing
  function as an argument, and the built-in `toLowerCase` is embedded as
  `jsToLowerCase` over the Unicode character data (`CaseData`), including the
  rule for a capital sigma at the end of a word.
-/

namespace AdminDashboard

/-! ## JavaScript values -/

/-- Values of parsed JSON bodies, plus `undefined` for a missing property.
The fields of an object are listed in property enumeration order. -/
inductive JsVal where
  | undefined
  | null
  | bool (b : Bool)
  | num (n : Int)
  | str (s : String)
  | arr (items : List JsVal)
  | obj (fields : List (String × JsVal))

/-- Reasons a handler leaves its `try` block: a thrown TypeError, or a request
that axios rejects (network failure or non-2xx status). -/
inductive JsError where
  | typeError
  | requestFailed (status : Nat)
  deriving DecidableEq, Repr

/-- Own data property `k` of an object literal, `undefined` when absent. -/
def lookupField (k : String) : List (String × JsVal) → JsVal
  | [] => .undefined
  | (name, v) :: rest => if name = k then v else lookupField k rest

/-- Property read `v.k` for a data key `k` (content, username, email, role):
throws on `undefined` and `null`, reads the field of an object, and is
`undefined` on arrays and primitives, which carry no such data property. -/
def getProp (v : JsVal) (k : String) : Except JsError JsVal :=
  match v with
  | .undefined => .error .typeError
  | .null => .error .typeError
  | .obj fields => .ok (lookupField k fields)
  | _ => .ok .undefined

/-- The test `Array.isArray(v)`. -/
def isArray : JsVal → Bool
  | .arr _ => true
  | _ => false

/-- Truthiness of a value, as used by `||` and `!`. -/
def truthy : JsVal → Bool
  | .undefined => false
  | .null => false
  | .bool b => b
  | .num n => n != 0
  | .str s => s != ""
  | .arr _ => true
  | .obj _ => true

/-- Comparison `v === "lit"` against a string literal. -/
def strictEqStr : JsVal → String → Bool
  | .str t, lit => t == lit
  | _, _ => false

/-- The method `Array.prototype.filter` with a callback that may throw: the
callback runs on the elements in order and the first exception aborts. -/
def jsFilter (cb : JsVal → Except JsError Bool) : List JsVal → Except JsError (List JsVal)
  | [] => .ok []
  | x :: xs =>
    match cb x with
    | .error e => .error e
    | .ok keep =>
      match jsFilter cb xs with
      | .error e => .error e
      | .ok ys => .ok (if keep then x :: ys else ys)

/-- Call `v.filter(cb)`: only an array has the method. -/
def callFilter (v : JsVal) (cb : JsVal → Except JsError Bool) : Except JsError JsVal :=
  match v with
  | .arr items =>
    match jsFilter cb items with
    | .error e => .error e
    | .ok ys => .ok (.arr ys)
  | _ => .error .typeError

/-- White space and line terminators removed by `String.prototype.trim`. -/
def isJsWhitespace (c : Char) : Bool :=
  let n := c.toNat
  n == 0x09 || n == 0x0A || n == 0x0B || n == 0x0C || n == 0x0D || n == 0x20 ||
  n == 0xA0 || n == 0x1680 || (0x2000 ≤ n && n ≤ 0x200A) || n == 0x2028 ||
  n == 0x2029 || n == 0x202F || n == 0x205F || n == 0x3000 || n == 0xFEFF

/-- The method `String.prototype.trim`. -/
def jsTrim (s : String) : String :=
  String.mk ((s.data.dropWhile isJsWhitespace).reverse.dropWhile isJsWhitespace).reverse

/-- Substring search on character sequences: does `t` occur in `s`. -/
def includesChars : List Char → List Char → Bool
  | [], t => t.isEmpty
  | c :: s, t => t.isPrefixOf (c :: s) || includesChars s t

/-- The method `String.prototype.includes`. -/
def includes (s t : String) : Bool :=
  includesChars s.data t.data

/-- Call `v.toLowerCase()`: only a string has the method. -/
def callToLowerCase (toLowerCase : String → String) : JsVal → Except JsError String
  | .str s => .ok (toLowerCase s)
  | _ => .error .typeError

/-- Unicode character data read by `String.prototype.toLowerCase`: the
lower-case mapping of a code point other than capital sigma (one or more
characters), and the properties Cased and Case_Ignorable. The character
database is not part of the repository. -/
structure CaseData where
  lower : Char → List Char
  cased : Char → Bool
  caseIgnorable : Char → Bool

/-- Greek capital letter sigma, U+03A3. -/
def capitalSigma : Char := Char.ofNat 0x03A3

/-- Greek small letter sigma, U+03C3. -/
def smallSigma : Char := Char.ofNat 0x03C3

/-- Greek small letter final sigma, U+03C2. -/
def finalSigma : Char := Char.ofNat 0x03C2

/-- Does the sequence start with zero or more case-ignorable characters
followed by a cased letter. -/
def reachesCased (d : CaseData) : List Char → Bool
  | [] => false
  | c :: rest => d.cased c || (d.caseIgnorable c && reachesCased d rest)

/-- Lower-casing of the characters that follow `before` (the preceding
characters, nearest first). A capital sigma becomes the final sigma when it is
preceded by a cased letter and not followed by one, case-ignorable characters
aside, and the small sigma otherwise; every other character takes its
lower-case mapping. -/
def lowerFrom (d : CaseData) (before : List Char) : List Char → List Char
  | [] => []
  | c :: rest =>
    (if c = capitalSigma then
      (if reachesCased d before && !reachesCased d rest then [finalSigma] else [smallSigma])
     else d.lower c) ++ lowerFrom d (c :: before) rest

/-- The method `String.prototype.toLowerCase`. -/
def jsToLowerCase (d : CaseData) (s : String) : String :=
  String.mk (lowerFrom d [] s.data)

/-- The method `Array.prototype.map` with the two-argument callback
`(element, index)`, counting from `start`. -/
def jsMapFrom {α β : Type} (f : α → Nat → β) : List α → Nat → List β
  | [], _ => []
  | x :: xs, start => f x start :: jsMapFrom f xs (start + 1)

/-- The method `Array.prototype.map` with callback `(element, index)`. -/
def jsMap {α β : Type} (f : α → Nat → β) (xs : List α) : List β :=
  jsMapFrom f xs 0

/-! ## Data model -/

/-- A user record of the data model. -/
structure User where
  username : String
  email : String
  role : String
  deriving DecidableEq, Repr

/-- The JSON object of a user record. -/
def User.toJs (u : User) : JsVal :=
  .obj [("username", .str u.username), ("email", .str u.email), ("role", .str u.role)]

/-- The draft of a new course held by the creation form. -/
structure Form where
  title : String
  description : String
  imageUrl : String
  url : String
  platform : String
  tutor : String
  deriving DecidableEq, Repr

/-- Component state: one field per `useState` hook. -/
structure State where
  courses : JsVal
  stats : JsVal
  error : String
  form : Form
  searchQuery : String
  users : JsVal
  userSearch : String
  isRotating : Bool

/-- The initial values passed to the `useState` hooks. -/
def initialState : State where
  courses := .arr []
  stats := .null
  error := ""
  form := ⟨"", "", "", "", "", ""⟩
  searchQuery := ""
  users := .arr []
  userSearch := ""
  isRotating := false

/-- Observable actions of a handler, in the order they are issued. -/
inductive Effect where
  | navigate (path : String)
  | get (url : String)
  | post (url : String) (body : Form)
  | delete (url : String)
  | setInterval (ms : Nat)
  | consoleError (label : String)
  | alert (message : String)
  deriving DecidableEq, Repr

/-- The answers of the backend during one handler run: `res.data` of a
resolved request, or the rejection. -/
structure Backend where
  get : String → Except JsError JsVal
  post : String → Form → Except JsError JsVal
  delete : String → Except JsError JsVal

/-! ## Handlers -/

/-- The expression `Array.isArray(res.data) ? res.data : res.data.content || []`. -/
def courseListOf (data : JsVal) : Except JsError JsVal :=
  if isArray data then .ok data
  else
    match getProp data "content" with
    | .error e => .error e
    | .ok content => .ok (if truthy content then content else .arr [])

/-- The body of `loadCourses` after `await axios.get(...)`, on the answer
`res` of the request: `setCourses` on success, and the `catch` branch for a
rejected request or a TypeError of the list expression. -/
def loadCoursesResume (res : Except JsError JsVal) (s : State) : State × List Effect :=
  match res with
  | .error _ =>
    ({ s with error := "403 - Admin access required. Please login as admin." }, [])
  | .ok data =>
    match courseListOf data with
    | .error _ =>
      ({ s with error := "403 - Admin access required. Please login as admin." }, [])
    | .ok list => ({ s with courses := list }, [])

/-- The handler `loadCourses`: the GET request, then its continuation. -/
def loadCourses (b : Backend) (s : State) : State × List Effect :=
  let r := loadCoursesResume (b.get "/courses?page=0&size=20") s
  (r.1, .get "/courses?page=0&size=20" :: r.2)

/-- The body of `loadStats` after `await axios.get(...)`. -/
def loadStatsResume (res : Except JsError JsVal) (s : State) : State × List Effect :=
  match res with
  | .error _ => (s, [.consoleError "Stats fetch error:"])
  | .ok data => ({ s with stats := data }, [])

/-- The handler `loadStats`: the GET request, then its continuation. -/
def loadStats (b : Backend) (s : State) : State × List Effect :=
  let r := loadStatsResume (b.get "/admin/dashboard") s
  (r.1, .get "/admin/dashboard" :: r.2)

/-- The callback `u => u.username !== "mrD" && u.role !== "ADMIN"`. -/
def keepUser (u : JsVal) : Except JsError Bool :=
  match getProp u "username" with
  | .error e => .error e
  | .ok name =>
    if strictEqStr name "mrD" then .ok false
    else
      match getProp u "role" with
      | .error e => .error e
      | .ok role => .ok (!strictEqStr role "ADMIN")

/-- The body of `loadUsers` after `await axios.get(...)`. -/
def loadUsersResume (res : Except JsError JsVal) (s : State) : State × List Effect :=
  match res with
  | .error _ => (s, [.consoleError "User fetch error"])
  | .ok data =>
    match callFilter data keepUser with
    | .error _ => (s, [.consoleError "User fetch error"])
    | .ok filtered => ({ s with users := filtered }, [])

/-- The handler `loadUsers`: the GET request, then its continuation. -/
def loadUsers (b : Backend) (s : State) : State × List Effect :=
  let r := loadUsersResume (b.get "/admin/users") s
  (r.1, .get "/admin/users" :: r.2)

/-- The handler `handleSearch(query = searchQuery, isReset = false)`; `none`
is a call without the first argument, which takes the default. -/
def handleSearch (b : Backend) (query : Option String) (s : State) : State × List Effect :=
  let q := query.getD s.searchQuery
  if jsTrim q = "" then loadCourses b s
  else
    match b.get ("/courses/search?q=" ++ q ++ "&page=0&size=10") with
    | .error _ =>
      ({ s with error := "Search failed." }, [.get ("/courses/search?q=" ++ q ++ "&page=0&size=10")])
    | .ok data =>
      match courseListOf data with
      | .error _ =>
        ({ s with error := "Search failed." },
          [.get ("/courses/search?q=" ++ q ++ "&page=0&size=10")])
      | .ok list =>
        ({ s with courses := list }, [.get ("/courses/search?q=" ++ q ++ "&page=0&size=10")])

/-- The handler `deleteCourse(id)`; `id` is the text the template literal
interpolates for the course id. -/
def deleteCourse (b : Backend) (id : String) (s : State) : State × List Effect :=
  match b.delete ("/admin/courses/" ++ id) with
  | .error _ => (s, [.delete ("/admin/courses/" ++ id), .consoleError ""])
  | .ok _ =>
    let r := handleSearch b (some "") s
    (r.1, .delete ("/admin/courses/" ++ id) :: r.2)

/-- The handler `addCourse`. -/
def addCourse (b : Backend) (s : State) : State × List Effect :=
  match b.post "/admin/courses" s.form with
  | .error _ => (s, [.post "/admin/courses" s.form, .consoleError ""])
  | .ok _ =>
    let r := loadCourses b { s with form := ⟨"", "", "", "", "", ""⟩ }
    (r.1, .post "/admin/courses" s.form :: r.2)

/-- The handler `handleUserDelete(username)`. -/
def handleUserDelete (b : Backend) (username : String) (s : State) : State × List Effect :=
  match b.delete ("/admin/users?username=" ++ username) with
  | .error _ =>
    (s, [.delete ("/admin/users?username=" ++ username), .alert "Failed to delete user"])
  | .ok _ =>
    let r := loadUsers b s
    (r.1, .delete ("/admin/users?username=" ++ username) :: r.2)

/-- The test `!localStorage.getItem("token")`: `getItem` gives `null` when
the key is absent (`none`) and the stored string otherwise. -/
def tokenMissing : Option String → Bool
  | none => true
  | some t => t == ""

/-- The mount effect (the `useEffect` with an empty dependency list). The
three loaders are called without `await`: each issues its GET and returns at
its `await`, then the timer is started, and the continuations of the loaders
run after the effect has returned. -/
def mountEffect (token : Option String) (b : Backend) (s : State) : State × List Effect :=
  if tokenMissing token then (s, [.navigate "/login"])
  else
    let r1 := loadCoursesResume (b.get "/courses?page=0&size=20") s
    let r2 := loadStatsResume (b.get "/admin/dashboard") r1.1
    let r3 := loadUsersResume (b.get "/admin/users") r2.1
    (r3.1,
      [.get "/courses?page=0&size=20", .get "/admin/dashboard", .get "/admin/users",
       .setInterval 60000] ++ r1.2 ++ r2.2 ++ r3.2)

/-- The `onChange` handler of the course search input. -/
def onSearchChange (b : Backend) (value : String) (s : State) : State × List Effect :=
  if jsTrim value = "" then handleSearch b (some "") { s with searchQuery := value }
  else ({ s with searchQuery := value }, [])

/-- The callback of the user filter:
`u.username.toLowerCase().includes(userSearch.toLowerCase()) ||
 u.email.toLowerCase().includes(userSearch.toLowerCase())`. -/
def matchesUserSearch (toLowerCase : String → String) (userSearch : String) (u : JsVal) :
    Except JsError Bool :=
  match getProp u "username" with
  | .error e => .error e
  | .ok name =>
    match callToLowerCase toLowerCase name with
    | .error e => .error e
    | .ok lowerName =>
      if includes lowerName (toLowerCase userSearch) then .ok true
      else
        match getProp u "email" with
        | .error e => .error e
        | .ok email =>
          match callToLowerCase toLowerCase email with
          | .error e => .error e
          | .ok lowerEmail => .ok (includes lowerEmail (toLowerCase userSearch))

/-- The render-time value `filteredUsers`. -/
def filteredUsers (toLowerCase : String → String) (users : JsVal) (userSearch : String) :
    Except JsError JsVal :=
  callFilter users (matchesUserSearch toLowerCase userSearch)

/-! ## Charts -/

/-- The palette `barColors`. -/
def barColors : List String :=
  ["#6f4e37", "#c97c5d", "#a0522d", "#deb887", "#d2691e", "#8b4513"]

/-- The palette `pieColors`. -/
def pieColors : List String :=
  ["#f4a261", "#2a9d8f", "#e76f51", "#e9c46a", "#264653", "#ffb4a2"]

/-- A rendered `<Cell key=... fill=... />`; `fill` is `none` when the palette
read is `undefined`. -/
structure Cell where
  key : String
  fill : Option String
  deriving DecidableEq, Repr

/-- The `data` of the bar chart, from `Object.entries(stats.platformDistribution)`. -/
def barChartData (entries : List (String × JsVal)) : List JsVal :=
  entries.map (fun e => .obj [("platform", .str e.1), ("count", e.2)])

/-- The cells of the bar chart. -/
def barCells (entries : List (String × JsVal)) : List Cell :=
  jsMap (fun _ index => ⟨"cell-" ++ toString index, barColors[index % barColors.length]?⟩) entries

/-- The `data` of the pie chart, from `Object.entries(stats.interestAreaPopularity)`. -/
def pieChartData (entries : List (String × JsVal)) : List JsVal :=
  entries.map (fun e => .obj [("name", .str e.1), ("value", e.2)])

/-- The cells of the pie chart. -/
def pieCells (entries : List (String × JsVal)) : List Cell :=
  jsMap (fun _ index => ⟨"cell-" ++ toString index, pieColors[index % pieColors.length]?⟩) entries

/-- ASCII lower-casing, an instance of `toLowerCase` used for concrete runs. -/
def asciiLower (s : String) : String :=
  String.mk (s.data.map Char.toLower)

/-! ## Specification-side predicates and sample data -/

/-- Specification side: the value is a JSON object, the shape of a user or an
envelope. -/
def isObject : JsVal → Bool
  | .obj _ => true
  | _ => false

/-- Specification side: field `k` of the object `u` is the string `lit`. -/
def fieldIs (k lit : String) : JsVal → Bool
  | .obj fields => strictEqStr (lookupField k fields) lit
  | _ => false

/-- Specification side: `t` occurs in `s` as a contiguous substring. -/
def occursIn (t s : String) : Prop :=
  ∃ before after : String, s = before ++ t ++ after

/-- Sample users: the reserved account, an administrator and two learners. -/
def sampleUsers : List User :=
  [⟨"mrD", "d@example.org", "USER"⟩, ⟨"root", "root@example.org", "ADMIN"⟩,
   ⟨"Alice", "alice@example.org", "USER"⟩, ⟨"bob", "Bob@Example.org", "USER"⟩]

/-- A backend on which every request succeeds: GET /admin/users answers the
sample users and every other GET an empty object. -/
def sampleBackend : Backend where
  get := fun url => if url = "/admin/users" then .ok (.arr (sampleUsers.map User.toJs)) else .ok (.obj [])
  post := fun _ _ => .ok .null
  delete := fun _ => .ok .null

/-- Lower-case mapping of the ASCII and basic Greek capital letters; every
other character is left as it is. -/
def basicLower (c : Char) : List Char :=
  let n := c.toNat
  if (0x41 ≤ n && n ≤ 0x5A) || (0x0391 ≤ n && n ≤ 0x03A1) || (0x03A3 ≤ n && n ≤ 0x03A9) then
    [Char.ofNat (n + 32)]
  else [c]

/-- The cased letters among the ASCII and basic Greek characters. -/
def basicCased (c : Char) : Bool :=
  let n := c.toNat
  (0x41 ≤ n && n ≤ 0x5A) || (0x61 ≤ n && n ≤ 0x7A) ||
  (0x0391 ≤ n && n ≤ 0x03A1) || (0x03A3 ≤ n && n ≤ 0x03A9) || (0x03B1 ≤ n && n ≤ 0x03C9)

/-- The case-ignorable ASCII characters: apostrophe, full stop, colon,
circumflex and grave accent. -/
def basicCaseIgnorable (c : Char) : Bool :=
  let n := c.toNat
  n == 0x27 || n == 0x2E || n == 0x3A || n == 0x5E || n == 0x60

/-- The character data restricted to ASCII and basic Greek, for concrete runs. -/
def basicCaseData : CaseData := ⟨basicLower, basicCased, basicCaseIgnorable⟩

/-- Specification side: lower-casing character by character, without regard
to the position in the word. -/
def eachLower (d : CaseData) : List Char → List Char
  | [] => []
  | c :: rest => d.lower c ++ eachLower d rest

/-- A backend that rejects every request with status 403. -/
def failingBackend : Backend where
  get := fun _ => .error (.requestFailed 403)
  post := fun _ _ => .error (.requestFailed 403)
  delete := fun _ => .error (.requestFailed 403)

/-- A paginated envelope whose content is a list of two courses. -/
def sampleEnvelope : JsVal :=
  .obj [("content", .arr [.obj [("id", .num 1), ("title", .str "Lean")],
                          .obj [("id", .num 2), ("title", .str "Coq")]]),
        ("totalPages", .num 1)]

/-- A backend that answers every GET with the sample envelope. -/
def envelopeBackend : Backend where
  get := fun _ => .ok sampleEnvelope
  post := fun _ _ => .ok .null
  delete := fun _ => .ok .null

/-! ## Lemmas on the JavaScript operations -/

theorem includesChars_iff (s t : List Char) : includesChars s t = true ↔ t <:+: s := by
  induction s with
  | nil => simp [includesChars]
  | cons c s ih => simp [includesChars, ih, List.infix_cons_iff]

theorem includes_iff (s t : String) : includes s t = true ↔ occursIn t s := by
  unfold includes occursIn
  rw [includesChars_iff]
  constructor
  · rintro ⟨a, c, h⟩
    refine ⟨String.mk a, String.mk c, ?_⟩
    apply String.ext
    simp [h]
  · rintro ⟨a, c, h⟩
    refine ⟨a.data, c.data, ?_⟩
    rw [h]
    simp

theorem jsFilter_map {α : Type} (cb : JsVal → Except JsError Bool) (f : α → JsVal)
    (p : α → Bool) (us : List α) (h : ∀ u ∈ us, cb (f u) = .ok (p u)) :
    jsFilter cb (us.map f) = .ok ((us.filter p).map f) := by
  induction us with
  | nil => rfl
  | cons u us ih =>
    have hu := h u (List.mem_cons_self u us)
    have hus := ih (fun y hy => h y (List.mem_cons_of_mem u hy))
    simp only [List.map_cons, jsFilter, hu, hus, List.filter_cons]
    cases p u <;> simp

theorem jsFilter_pure (cb : JsVal → Except JsError Bool) (p : JsVal → Bool) (xs : List JsVal)
    (h : ∀ x ∈ xs, cb x = .ok (p x)) : jsFilter cb xs = .ok (xs.filter p) := by
  have := jsFilter_map cb id p xs h
  simpa using this

theorem keepUser_obj (fields : List (String × JsVal)) :
    keepUser (.obj fields) =
      .ok (!fieldIs "username" "mrD" (.obj fields) && !fieldIs "role" "ADMIN" (.obj fields)) := by
  simp only [keepUser, getProp, fieldIs]
  cases strictEqStr (lookupField "username" fields) "mrD" <;> simp

theorem keepUser_of_isObject (x : JsVal) (hx : isObject x = true) :
    keepUser x = .ok (!fieldIs "username" "mrD" x && !fieldIs "role" "ADMIN" x) := by
  cases x <;> first | exact keepUser_obj _ | simp [isObject] at hx

theorem keepUser_toJs (u : User) :
    keepUser u.toJs = .ok (u.username != "mrD" && u.role != "ADMIN") := by
  rw [keepUser_of_isObject u.toJs rfl]
  simp [fieldIs, User.toJs, lookupField, strictEqStr, bne]

theorem loadUsers_users_of_ok (b : Backend) (s : State) (xs : List JsVal)
    (hobj : ∀ x ∈ xs, isObject x = true) (hres : b.get "/admin/users" = .ok (.arr xs)) :
    (loadUsers b s).1.users =
      .arr (xs.filter (fun u => !fieldIs "username" "mrD" u && !fieldIs "role" "ADMIN" u)) := by
  have h := jsFilter_pure keepUser _ xs (fun x hx => keepUser_of_isObject x (hobj x hx))
  simp [loadUsers, loadUsersResume, hres, callFilter, h]

theorem loadUsers_users_of_typed (b : Backend) (s : State) (us : List User)
    (hres : b.get "/admin/users" = .ok (.arr (us.map User.toJs))) :
    (loadUsers b s).1.users =
      .arr ((us.filter (fun u => u.username != "mrD" && u.role != "ADMIN")).map User.toJs) := by
  have h := jsFilter_map keepUser User.toJs _ us (fun u _ => keepUser_toJs u)
  simp [loadUsers, loadUsersResume, hres, callFilter, h]

theorem matchesUserSearch_toJs (toLowerCase : String → String) (q : String) (u : User) :
    matchesUserSearch toLowerCase q u.toJs =
      .ok (includes (toLowerCase u.username) (toLowerCase q) ||
            includes (toLowerCase u.email) (toLowerCase q)) := by
  simp only [matchesUserSearch, User.toJs, getProp, lookupField, callToLowerCase]
  by_cases h : includes (toLowerCase u.username) (toLowerCase q) = true <;> simp [h]

theorem filteredUsers_toJs (toLowerCase : String → String) (us : List User) (q : String) :
    filteredUsers toLowerCase (.arr (us.map User.toJs)) q =
      .ok (.arr ((us.filter (fun u => includes (toLowerCase u.username) (toLowerCase q) ||
            includes (toLowerCase u.email) (toLowerCase q))).map User.toJs)) := by
  have h := jsFilter_map (matchesUserSearch toLowerCase q) User.toJs _ us
    (fun u _ => matchesUserSearch_toJs toLowerCase q u)
  simp only [filteredUsers, callFilter, h]

theorem eachLower_append (d : CaseData) (x y : List Char) :
    eachLower d (x ++ y) = eachLower d x ++ eachLower d y := by
  induction x with
  | nil => rfl
  | cons c x ih => simp [eachLower, ih]

theorem lowerFrom_eq_eachLower (d : CaseData) (before l : List Char)
    (h : capitalSigma ∉ l) : lowerFrom d before l = eachLower d l := by
  induction l generalizing before with
  | nil => rfl
  | cons c l ih =>
    have hc : c ≠ capitalSigma := fun e => h (e ▸ List.mem_cons_self _ _)
    have hl : capitalSigma ∉ l := fun e => h (List.mem_cons_of_mem _ e)
    simp [lowerFrom, eachLower, hc, ih _ hl]

theorem occursIn_jsToLowerCase (d : CaseData) (v field : String)
    (hsigma : capitalSigma ∉ field.data) (hocc : occursIn v field) :
    occursIn (jsToLowerCase d v) (jsToLowerCase d field) := by
  obtain ⟨x, y, rfl⟩ := hocc
  have hv : capitalSigma ∉ v.data := fun e => hsigma (by simp [e])
  refine ⟨String.mk (eachLower d x.data), String.mk (eachLower d y.data), ?_⟩
  apply String.ext
  simp only [String.data_append] at hsigma
  simp only [jsToLowerCase, String.data_append]
  rw [lowerFrom_eq_eachLower d [] _ hsigma, lowerFrom_eq_eachLower d [] _ hv]
  simp [eachLower_append]

/-! ## User list (C1, C2) -/

/-- C1: for every successful response to GET /admin/users that is a list of
user objects, the list stored by loadUsers is the response filtered by
username ≠ "mrD" and role ≠ "ADMIN": it holds no user named "mrD" and no user
of role "ADMIN", it holds every other user of the response, and it keeps the
order of the response. -/
theorem loadUsers_filters_reserved_and_admin (b : Backend) (s : State) (xs : List JsVal)
    (hobj : ∀ x ∈ xs, isObject x = true)
    (hres : b.get "/admin/users" = .ok (.arr xs)) :
    (loadUsers b s).1.users =
        .arr (xs.filter (fun u => !fieldIs "username" "mrD" u && !fieldIs "role" "ADMIN" u)) ∧
    ∃ stored, (loadUsers b s).1.users = .arr stored ∧
      (∀ u ∈ stored, fieldIs "username" "mrD" u = false ∧ fieldIs "role" "ADMIN" u = false) ∧
      (∀ u ∈ xs, fieldIs "username" "mrD" u = false → fieldIs "role" "ADMIN" u = false →
        u ∈ stored) ∧
      stored.Sublist xs := by
  have h := loadUsers_users_of_ok b s xs hobj hres
  refine ⟨h, _, h, ?_, ?_, List.filter_sublist xs⟩
  · intro u hu
    have := (List.mem_filter.mp hu).2
    simpa using this
  · intro u hu h1 h2
    exact List.mem_filter.mpr ⟨hu, by simp [h1, h2]⟩

/-- Witness of C1: on the sample response the stored list is Alice and bob. -/
theorem loadUsers_filters_reserved_and_admin_witness :
    (∀ x ∈ sampleUsers.map User.toJs, isObject x = true) ∧
    sampleBackend.get "/admin/users" = .ok (.arr (sampleUsers.map User.toJs)) ∧
    (loadUsers sampleBackend initialState).1.users =
      .arr [User.toJs ⟨"Alice", "alice@example.org", "USER"⟩,
            User.toJs ⟨"bob", "Bob@Example.org", "USER"⟩] := by
  have hobj : ∀ x ∈ sampleUsers.map User.toJs, isObject x = true := by
    intro x hx
    obtain ⟨u, -, rfl⟩ := List.mem_map.mp hx
    rfl
  exact ⟨hobj, rfl,
    (loadUsers_filters_reserved_and_admin sampleBackend initialState
      (sampleUsers.map User.toJs) hobj rfl).1.trans rfl⟩

/-- C2, as stated, fails: a user whose username contains the search string,
even in the same letter case, can be hidden. With the username "ΟΔΟΣ" and the
search string "Σ", the username lower-cases to "οδος" (final sigma) and the
search string to "σ", so the user is not displayed. -/
theorem filteredUsers_final_sigma_counterexample :
    ¬ (∀ (us : List User) (q : String) (u : User), u ∈ us →
        occursIn q u.username ∨ occursIn q u.email →
        ∃ shown : List User,
          filteredUsers (jsToLowerCase basicCaseData) (.arr (us.map User.toJs)) q =
            .ok (.arr (shown.map User.toJs)) ∧ u ∈ shown) := by
  intro h
  obtain ⟨shown, h1, h2⟩ := h [⟨"ΟΔΟΣ", "odos@example.org", "USER"⟩] "Σ"
    ⟨"ΟΔΟΣ", "odos@example.org", "USER"⟩ (by simp) (Or.inl ⟨"ΟΔΟ", "", by decide⟩)
  have h3 : filteredUsers (jsToLowerCase basicCaseData)
      (.arr ([(⟨"ΟΔΟΣ", "odos@example.org", "USER"⟩ : User)].map User.toJs)) "Σ" =
      .ok (.arr []) := rfl
  rw [h3] at h1
  have h4 : shown = [] := by simpa using h1
  rw [h4] at h2
  simp at h2

/-- C2 (amended): for every stored user list and every search string q, the
displayed list is the stored list filtered, in order, by: the lower-cased
username contains the lower-cased q, or the lower-cased email does. A user
whose lower-cased username and email both lack the lower-cased q is not
displayed. A user whose username or email contains a string equal to q up to
letter case is displayed, provided that username or email holds no capital
sigma, the letter whose lower-case form depends on its position in the word. -/
theorem filteredUsers_case_insensitive (d : CaseData) (us : List User) (q : String) :
    ∃ shown : List User,
      filteredUsers (jsToLowerCase d) (.arr (us.map User.toJs)) q =
        .ok (.arr (shown.map User.toJs)) ∧
      shown = us.filter (fun u =>
        includes (jsToLowerCase d u.username) (jsToLowerCase d q) ||
        includes (jsToLowerCase d u.email) (jsToLowerCase d q)) ∧
      (∀ u, u ∈ shown ↔ u ∈ us ∧
        (occursIn (jsToLowerCase d q) (jsToLowerCase d u.username) ∨
          occursIn (jsToLowerCase d q) (jsToLowerCase d u.email))) ∧
      shown.Sublist us ∧
      (∀ u ∈ us, ∀ v, jsToLowerCase d v = jsToLowerCase d q →
        (occursIn v u.username ∧ capitalSigma ∉ u.username.data) ∨
          (occursIn v u.email ∧ capitalSigma ∉ u.email.data) →
        u ∈ shown) ∧
      (∀ u ∈ us, ¬ occursIn (jsToLowerCase d q) (jsToLowerCase d u.username) →
        ¬ occursIn (jsToLowerCase d q) (jsToLowerCase d u.email) → u ∉ shown) := by
  have hmem : ∀ u, u ∈ us.filter (fun u =>
        includes (jsToLowerCase d u.username) (jsToLowerCase d q) ||
        includes (jsToLowerCase d u.email) (jsToLowerCase d q)) ↔ u ∈ us ∧
        (occursIn (jsToLowerCase d q) (jsToLowerCase d u.username) ∨
          occursIn (jsToLowerCase d q) (jsToLowerCase d u.email)) := by
    intro u
    simp [List.mem_filter, includes_iff]
  refine ⟨_, filteredUsers_toJs (jsToLowerCase d) us q, rfl, hmem, List.filter_sublist us,
    ?_, ?_⟩
  · intro u hu v hv hocc
    refine (hmem u).mpr ⟨hu, ?_⟩
    rcases hocc with ⟨h, hsigma⟩ | ⟨h, hsigma⟩
    · exact Or.inl (hv ▸ occursIn_jsToLowerCase d v _ hsigma h)
    · exact Or.inr (hv ▸ occursIn_jsToLowerCase d v _ hsigma h)
  · intro u _ h1 h2 hshown
    rcases ((hmem u).mp hshown).2 with h | h
    · exact h1 h
    · exact h2 h

/-- Witness of C2 (amended): the search string "ALI" displays Alice, whose
username contains "Ali" and no capital sigma. -/
theorem filteredUsers_case_insensitive_witness :
    jsToLowerCase basicCaseData "Ali" = jsToLowerCase basicCaseData "ALI" ∧
    occursIn "Ali" "Alice" ∧ capitalSigma ∉ ("Alice" : String).data ∧
    ∃ shown : List User,
      filteredUsers (jsToLowerCase basicCaseData) (.arr (sampleUsers.map User.toJs)) "ALI" =
        .ok (.arr (shown.map User.toJs)) ∧
      (⟨"Alice", "alice@example.org", "USER"⟩ : User) ∈ shown := by
  obtain ⟨shown, h1, -, -, -, h5, -⟩ :=
    filteredUsers_case_insensitive basicCaseData sampleUsers "ALI"
  refine ⟨by decide, ⟨"", "ce", by decide⟩, by decide, shown, h1, ?_⟩
  exact h5 ⟨"Alice", "alice@example.org", "USER"⟩ (by decide) "Ali" (by decide)
    (Or.inl ⟨⟨"", "ce", by decide⟩, by decide⟩)

/-! ## Lemmas on the loaders -/

theorem jsTrim_empty : jsTrim "" = "" := rfl

theorem dropWhile_all_iff (p : Char → Bool) (l : List Char) :
    (∀ x ∈ l.dropWhile p, p x = true) ↔ ∀ x ∈ l, p x = true := by
  constructor
  · intro h
    by_cases hnil : l.dropWhile p = []
    · exact List.dropWhile_eq_nil_iff.mp hnil
    · have hhead := List.head_dropWhile_not p l hnil
      have := h _ (List.head_mem hnil)
      simp [this] at hhead
  · intro h x hx
    exact h x ((List.dropWhile_sublist p).subset hx)

theorem jsTrim_eq_empty_iff (q : String) :
    jsTrim q = "" ↔ ∀ c ∈ q.data, isJsWhitespace c = true := by
  have hmk : jsTrim q = "" ↔
      ((q.data.dropWhile isJsWhitespace).reverse.dropWhile isJsWhitespace).reverse = [] := by
    unfold jsTrim
    constructor
    · intro h
      exact congrArg String.data h
    · intro h
      rw [h]
  rw [hmk, List.reverse_eq_nil_iff, List.dropWhile_eq_nil_iff]
  constructor
  · intro h
    exact (dropWhile_all_iff _ _).mp (fun x hx => h x (List.mem_reverse.mpr hx))
  · intro h x hx
    exact (dropWhile_all_iff _ _).mpr h x (List.mem_reverse.mp hx)

theorem loadCoursesResume_log (res : Except JsError JsVal) (s : State) :
    (loadCoursesResume res s).2 = [] := by
  unfold loadCoursesResume
  split
  · rfl
  · split <;> rfl

theorem loadStatsResume_log (res : Except JsError JsVal) (s : State) :
    (loadStatsResume res s).2 = [] ∨
    (loadStatsResume res s).2 = [.consoleError "Stats fetch error:"] := by
  unfold loadStatsResume
  split
  · exact Or.inr rfl
  · exact Or.inl rfl

theorem loadUsersResume_log (res : Except JsError JsVal) (s : State) :
    (loadUsersResume res s).2 = [] ∨
    (loadUsersResume res s).2 = [.consoleError "User fetch error"] := by
  unfold loadUsersResume
  split
  · exact Or.inr rfl
  · split
    · exact Or.inr rfl
    · exact Or.inl rfl

theorem loadCourses_log (b : Backend) (s : State) :
    (loadCourses b s).2 = [.get "/courses?page=0&size=20"] := by
  simp [loadCourses, loadCoursesResume_log]

theorem loadCoursesResume_form (res : Except JsError JsVal) (s : State) :
    (loadCoursesResume res s).1.form = s.form := by
  unfold loadCoursesResume
  split
  · rfl
  · split <;> rfl

theorem loadCourses_searchQuery (b : Backend) (s : State) :
    (loadCourses b s).1.searchQuery = s.searchQuery := by
  simp only [loadCourses]
  unfold loadCoursesResume
  split
  · rfl
  · split <;> rfl

/-! ## Session guard (C3, C4) -/

/-- C3: when no auth token is stored, the mount effect navigates to "/login"
and does nothing else: no GET, POST or DELETE is issued, so none of
loadCourses, loadStats, loadUsers runs, the 60-second timer is not started
and the state is unchanged. A stored empty string is treated the same way. -/
theorem mountEffect_without_token (b : Backend) (s : State) :
    mountEffect none b s = (s, [.navigate "/login"]) ∧
    (∀ url, Effect.get url ∉ (mountEffect none b s).2) ∧
    (∀ url body, Effect.post url body ∉ (mountEffect none b s).2) ∧
    (∀ url, Effect.delete url ∉ (mountEffect none b s).2) ∧
    (∀ ms, Effect.setInterval ms ∉ (mountEffect none b s).2) ∧
    mountEffect (some "") b s = (s, [.navigate "/login"]) := by
  refine ⟨rfl, ?_, ?_, ?_, ?_, rfl⟩ <;> simp [mountEffect, tokenMissing]

/-- C4: when a (non-empty) auth token is stored, the mount effect issues
exactly one GET /courses?page=0&size=20, exactly one GET /admin/dashboard and
exactly one GET /admin/users, no other request, and no navigation; it then
starts the 60-second timer. -/
theorem mountEffect_with_token (t : String) (ht : t ≠ "") (b : Backend) (s : State) :
    (mountEffect (some t) b s).2.count (.get "/courses?page=0&size=20") = 1 ∧
    (mountEffect (some t) b s).2.count (.get "/admin/dashboard") = 1 ∧
    (mountEffect (some t) b s).2.count (.get "/admin/users") = 1 ∧
    (∀ url, Effect.get url ∈ (mountEffect (some t) b s).2 →
      url = "/courses?page=0&size=20" ∨ url = "/admin/dashboard" ∨ url = "/admin/users") ∧
    (∀ url body, Effect.post url body ∉ (mountEffect (some t) b s).2) ∧
    (∀ url, Effect.delete url ∉ (mountEffect (some t) b s).2) ∧
    (∀ path, Effect.navigate path ∉ (mountEffect (some t) b s).2) ∧
    Effect.setInterval 60000 ∈ (mountEffect (some t) b s).2 := by
  have hlog : (mountEffect (some t) b s).2 =
      [.get "/courses?page=0&size=20", .get "/admin/dashboard", .get "/admin/users",
        .setInterval 60000] ++
      (loadStatsResume (b.get "/admin/dashboard")
        (loadCoursesResume (b.get "/courses?page=0&size=20") s).1).2 ++
      (loadUsersResume (b.get "/admin/users")
        (loadStatsResume (b.get "/admin/dashboard")
          (loadCoursesResume (b.get "/courses?page=0&size=20") s).1).1).2 := by
    simp [mountEffect, tokenMissing, ht, loadCoursesResume_log]
  rw [hlog]
  rcases loadStatsResume_log (b.get "/admin/dashboard")
      (loadCoursesResume (b.get "/courses?page=0&size=20") s).1 with h1 | h1 <;>
    rcases loadUsersResume_log (b.get "/admin/users")
      (loadStatsResume (b.get "/admin/dashboard")
        (loadCoursesResume (b.get "/courses?page=0&size=20") s).1).1 with h2 | h2 <;>
    rw [h1, h2] <;>
    refine ⟨by decide, by decide, by decide, ?_, ?_, ?_, ?_, by decide⟩ <;>
    simp

/-- Witness of C4: with the token "abc" and the sample backend the effects are
the three GETs followed by the timer. -/
theorem mountEffect_with_token_witness :
    "abc" ≠ "" ∧
    (mountEffect (some "abc") sampleBackend initialState).2 =
      [.get "/courses?page=0&size=20", .get "/admin/dashboard", .get "/admin/users",
       .setInterval 60000] ∧
    (mountEffect (some "abc") sampleBackend initialState).2.count
      (.get "/courses?page=0&size=20") = 1 :=
  ⟨by decide, rfl, (mountEffect_with_token "abc" (by decide) sampleBackend initialState).1⟩

/-! ## Course search and mutations (C5, C6, C7) -/

theorem onSearchChange_clear (b : Backend) (value : String) (s : State)
    (hclear : jsTrim value = "") :
    (onSearchChange b value s).2 = [.get "/courses?page=0&size=20"] ∧
    (onSearchChange b value s).1.searchQuery = value := by
  have hsearch : handleSearch b (some "") { s with searchQuery := value } =
      loadCourses b { s with searchQuery := value } := by
    simp [handleSearch, jsTrim_empty]
  simp [onSearchChange, hclear, hsearch, loadCourses_log, loadCourses_searchQuery]

theorem onSearchChange_typing (b : Backend) (value : String) (s : State)
    (htyped : jsTrim value ≠ "") :
    onSearchChange b value s = ({ s with searchQuery := value }, []) := by
  simp [onSearchChange, htyped]

/-- C5, as stated, fails: for a non-list response the course list is not
always the content field. With the query "java" and an empty object as
response body the content field is `undefined`, while the course list becomes `[]`. -/
theorem handleSearch_content_counterexample :
    ¬ (∀ (b : Backend) (q : String) (s : State) (data : JsVal),
        jsTrim q ≠ "" →
        b.get ("/courses/search?q=" ++ q ++ "&page=0&size=10") = .ok data →
        isArray data = false →
        getProp data "content" = .ok (handleSearch b (some q) s).1.courses) := by
  intro h
  have h1 := h sampleBackend "java" initialState (.obj []) (by decide) rfl rfl
  have h2 : (handleSearch sampleBackend (some "java") initialState).1.courses = .arr [] := rfl
  rw [h2] at h1
  simp [getProp, lookupField] at h1

/-- C5 (amended): for the query q that handleSearch works on (its argument,
or the stored search query when called without one): q trims to the empty
string exactly when it is empty or all white space, and then handleSearch is
the full reload, issuing GET /courses?page=0&size=20 and nothing else;
otherwise it issues exactly GET /courses/search?q=q&page=0&size=10, and on a
successful response the course list becomes the body itself when that is a
list, and for any other body except null and undefined its content field when
that field is truthy and the empty list when it is missing or falsy. -/
theorem handleSearch_routes_by_query (b : Backend) (query : Option String) (s : State)
    (q : String) (hq : q = query.getD s.searchQuery) :
    (jsTrim q = "" ↔ ∀ c ∈ q.data, isJsWhitespace c = true) ∧
    (jsTrim q = "" →
      handleSearch b query s = loadCourses b s ∧
      (handleSearch b query s).2 = [.get "/courses?page=0&size=20"]) ∧
    (jsTrim q ≠ "" →
      (handleSearch b query s).2 = [.get ("/courses/search?q=" ++ q ++ "&page=0&size=10")] ∧
      ∀ data, b.get ("/courses/search?q=" ++ q ++ "&page=0&size=10") = .ok data →
        (isArray data = true → (handleSearch b query s).1.courses = data) ∧
        (isArray data = false → data ≠ .null → data ≠ .undefined →
          ∃ content, getProp data "content" = .ok content ∧
            (handleSearch b query s).1.courses =
              if truthy content then content else .arr [])) := by
  subst hq
  refine ⟨jsTrim_eq_empty_iff _, ?_, ?_⟩
  · intro hempty
    have heq : handleSearch b query s = loadCourses b s := by
      simp [handleSearch, hempty]
    exact ⟨heq, by rw [heq, loadCourses_log]⟩
  · intro hne
    constructor
    · simp only [handleSearch, hne, if_false]
      split
      · rfl
      · split <;> rfl
    · intro data hdata
      constructor
      · intro harr
        simp [handleSearch, hne, hdata, courseListOf, harr]
      · intro harr hnull hundef
        obtain ⟨content, hcontent⟩ : ∃ content, getProp data "content" = .ok content := by
          cases data <;> first | exact absurd rfl hnull | exact absurd rfl hundef | exact ⟨_, rfl⟩
        exact ⟨content, hcontent, by
          simp [handleSearch, hne, hdata, courseListOf, harr, hcontent]⟩

/-- Witness of C5 (amended): the Search button with the stored query "java"
issues the search request, and the empty-object answer gives the empty list. -/
theorem handleSearch_routes_by_query_witness :
    "java" = (none : Option String).getD
      (State.searchQuery { initialState with searchQuery := "java" }) ∧
    jsTrim "java" ≠ "" ∧
    (handleSearch sampleBackend none { initialState with searchQuery := "java" }).2 =
      [.get ("/courses/search?q=" ++ "java" ++ "&page=0&size=10")] :=
  ⟨rfl, by decide,
    ((handleSearch_routes_by_query sampleBackend none
      { initialState with searchQuery := "java" } "java" rfl).2.2 (by decide)).1⟩

/-- C6: addCourse first POSTs the current draft to /admin/courses. When the
POST succeeds, all six form fields become the empty string and one course list
fetch follows; when the POST fails, the state (the draft included) is
unchanged and no course list fetch is issued. -/
theorem addCourse_resets_form_on_success (b : Backend) (s : State) :
    (addCourse b s).2.head? = some (.post "/admin/courses" s.form) ∧
    (∀ v, b.post "/admin/courses" s.form = .ok v →
      (addCourse b s).1.form.title = "" ∧ (addCourse b s).1.form.description = "" ∧
      (addCourse b s).1.form.imageUrl = "" ∧ (addCourse b s).1.form.url = "" ∧
      (addCourse b s).1.form.platform = "" ∧ (addCourse b s).1.form.tutor = "" ∧
      (addCourse b s).2 =
        [.post "/admin/courses" s.form, .get "/courses?page=0&size=20"]) ∧
    (∀ e, b.post "/admin/courses" s.form = .error e →
      (addCourse b s).1 = s ∧
      (addCourse b s).2 = [.post "/admin/courses" s.form, .consoleError ""] ∧
      ∀ url, Effect.get url ∉ (addCourse b s).2) := by
  have hform : ∀ s0 : State, (loadCourses b s0).1.form = s0.form := by
    intro s0
    simp [loadCourses, loadCoursesResume_form]
  refine ⟨?_, ?_, ?_⟩
  · unfold addCourse
    split <;> rfl
  · intro v hv
    have hst : (addCourse b s).1 = (loadCourses b { s with form := ⟨"", "", "", "", "", ""⟩ }).1 := by
      simp [addCourse, hv]
    have hlog : (addCourse b s).2 =
        [.post "/admin/courses" s.form, .get "/courses?page=0&size=20"] := by
      simp [addCourse, hv, loadCourses_log]
    rw [hst, hform]
    exact ⟨rfl, rfl, rfl, rfl, rfl, rfl, hlog⟩
  · intro e he
    simp [addCourse, he]

/-- Witness of C6: on the sample backend a draft is posted, cleared and
followed by the course list fetch. -/
theorem addCourse_resets_form_on_success_witness :
    sampleBackend.post "/admin/courses"
      (State.form { initialState with form := ⟨"Lean", "d", "i", "u", "p", "t"⟩ }) = .ok .null ∧
    (addCourse sampleBackend { initialState with form := ⟨"Lean", "d", "i", "u", "p", "t"⟩ }).2 =
      [.post "/admin/courses" ⟨"Lean", "d", "i", "u", "p", "t"⟩,
       .get "/courses?page=0&size=20"] :=
  ⟨rfl, ((addCourse_resets_form_on_success sampleBackend
    { initialState with form := ⟨"Lean", "d", "i", "u", "p", "t"⟩ }).2.1 .null rfl).2.2.2.2.2.2⟩

/-- C7, as stated, fails: with the stored search query "java", a successful
deleteCourse does not reload through the search endpoint. -/
theorem deleteCourse_search_counterexample :
    ¬ (∀ (b : Backend) (id : String) (s : State) (v : JsVal),
        b.delete ("/admin/courses/" ++ id) = .ok v →
        jsTrim s.searchQuery ≠ "" →
        Effect.get ("/courses/search?q=" ++ s.searchQuery ++ "&page=0&size=10") ∈
          (deleteCourse b id s).2) := by
  intro h
  have h1 := h sampleBackend "7" { initialState with searchQuery := "java" } .null rfl
    (by decide)
  revert h1
  decide

/-- C7 (amended): after a successful DELETE, deleteCourse calls handleSearch
with the empty query, whatever the stored search query is: the effects are the
DELETE followed by the full reload GET /courses?page=0&size=20, the resulting
state is that of loadCourses, and the stored search query is unchanged. -/
theorem deleteCourse_reloads_full_list (b : Backend) (id : String) (s : State) (v : JsVal)
    (hdel : b.delete ("/admin/courses/" ++ id) = .ok v) :
    (deleteCourse b id s).2 =
      [.delete ("/admin/courses/" ++ id), .get "/courses?page=0&size=20"] ∧
    (∀ url, Effect.get url ∈ (deleteCourse b id s).2 → url = "/courses?page=0&size=20") ∧
    (deleteCourse b id s).1 = (loadCourses b s).1 ∧
    (deleteCourse b id s).1.searchQuery = s.searchQuery := by
  have hsearch : handleSearch b (some "") s = loadCourses b s := by
    simp [handleSearch, jsTrim_empty]
  have hst : (deleteCourse b id s).1 = (loadCourses b s).1 := by
    simp [deleteCourse, hdel, hsearch]
  have hlog : (deleteCourse b id s).2 =
      [.delete ("/admin/courses/" ++ id), .get "/courses?page=0&size=20"] := by
    simp [deleteCourse, hdel, hsearch, loadCourses_log]
  refine ⟨hlog, ?_, hst, ?_⟩
  · intro url hurl
    rw [hlog] at hurl
    simpa using hurl
  · rw [hst, loadCourses_searchQuery]

/-- Witness of C7 (amended): with the stored query "java" the reload after the
DELETE is the full list fetch. -/
theorem deleteCourse_reloads_full_list_witness :
    sampleBackend.delete ("/admin/courses/" ++ "7") = .ok .null ∧
    (deleteCourse sampleBackend "7" { initialState with searchQuery := "java" }).2 =
      [.delete ("/admin/courses/" ++ "7"), .get "/courses?page=0&size=20"] :=
  ⟨rfl, (deleteCourse_reloads_full_list sampleBackend "7"
    { initialState with searchQuery := "java" } .null rfl).1⟩

/-! ## User deletion (C8) -/

/-- C8: when the DELETE of handleUserDelete(n) succeeds and the following
GET /admin/users answers a list of users none of whom is named n, the stored
list after the reload is that answer filtered by loadUsers and holds no user
named n, and for every search string the displayed list is computed and holds
no user named n. When the DELETE fails, the state is unchanged, the alert is
shown and no reload is issued. -/
theorem handleUserDelete_removes_user (toLowerCase : String → String) (b : Backend)
    (n : String) (s : State) :
    (∀ (v : JsVal) (us : List User), b.delete ("/admin/users?username=" ++ n) = .ok v →
      b.get "/admin/users" = .ok (.arr (us.map User.toJs)) →
      (∀ u ∈ us, u.username ≠ n) →
      ∃ stored : List User,
        (handleUserDelete b n s).1.users = .arr (stored.map User.toJs) ∧
        stored = us.filter (fun u => u.username != "mrD" && u.role != "ADMIN") ∧
        (∀ u ∈ stored, u.username ≠ n) ∧
        (handleUserDelete b n s).2 =
          [.delete ("/admin/users?username=" ++ n), .get "/admin/users"] ∧
        ∀ q, ∃ shown : List User,
          filteredUsers toLowerCase (handleUserDelete b n s).1.users q =
            .ok (.arr (shown.map User.toJs)) ∧
          ∀ u ∈ shown, u.username ≠ n) ∧
    (∀ e, b.delete ("/admin/users?username=" ++ n) = .error e →
      (handleUserDelete b n s).1 = s ∧
      (handleUserDelete b n s).2 =
        [.delete ("/admin/users?username=" ++ n), .alert "Failed to delete user"] ∧
      ∀ url, Effect.get url ∉ (handleUserDelete b n s).2) := by
  constructor
  · intro v us hdel hget hn
    have hst : (handleUserDelete b n s).1 = (loadUsers b s).1 := by
      simp [handleUserDelete, hdel]
    have hstored : ∀ u ∈ us.filter (fun u => u.username != "mrD" && u.role != "ADMIN"),
        u.username ≠ n := fun u hu => hn u (List.mem_of_mem_filter hu)
    have husers := loadUsers_users_of_typed b s us hget
    refine ⟨_, by rw [hst, husers], rfl, hstored, ?_, ?_⟩
    · have hlog : (loadUsers b s).2 = [.get "/admin/users"] := by
        have h := jsFilter_map keepUser User.toJs _ us (fun u _ => keepUser_toJs u)
        simp [loadUsers, loadUsersResume, hget, callFilter, h]
      simp [handleUserDelete, hdel, hlog]
    · intro q
      rw [hst, husers]
      exact ⟨_, filteredUsers_toJs toLowerCase _ q,
        fun u hu => hstored u (List.mem_of_mem_filter hu)⟩
  · intro e he
    simp [handleUserDelete, he]

/-- Witness of C8: deleting "carol" on the sample backend, whose user list has
no "carol", stores Alice and bob. -/
theorem handleUserDelete_removes_user_witness :
    sampleBackend.delete ("/admin/users?username=" ++ "carol") = .ok .null ∧
    sampleBackend.get "/admin/users" = .ok (.arr (sampleUsers.map User.toJs)) ∧
    (∀ u ∈ sampleUsers, u.username ≠ "carol") ∧
    ∃ stored : List User,
      (handleUserDelete sampleBackend "carol" initialState).1.users =
        .arr (stored.map User.toJs) ∧
      stored = [⟨"Alice", "alice@example.org", "USER"⟩, ⟨"bob", "Bob@Example.org", "USER"⟩] := by
  obtain ⟨stored, h1, h2, -⟩ :=
    (handleUserDelete_removes_user asciiLower sampleBackend "carol" initialState).1
      .null sampleUsers rfl rfl (by decide)
  exact ⟨rfl, rfl, by decide, stored, h1, h2.trans (by decide)⟩

/-! ## Course list loading (C9) -/

/-- C9: for the response to GET /courses?page=0&size=20 in loadCourses: a list
body becomes the course list; an envelope whose content field holds a list
gives that content; an object whose content field is missing or falsy gives
the empty list; and when the request fails the error message becomes the
admin-access-required text and the course list is unchanged. -/
theorem loadCourses_accepts_list_or_envelope (b : Backend) (s : State) :
    (∀ xs, b.get "/courses?page=0&size=20" = .ok (.arr xs) →
      (loadCourses b s).1.courses = .arr xs) ∧
    (∀ fields xs, b.get "/courses?page=0&size=20" = .ok (.obj fields) →
      lookupField "content" fields = .arr xs →
      (loadCourses b s).1.courses = .arr xs) ∧
    (∀ fields, b.get "/courses?page=0&size=20" = .ok (.obj fields) →
      (∀ p ∈ fields, p.1 ≠ "content") →
      (loadCourses b s).1.courses = .arr []) ∧
    (∀ fields, b.get "/courses?page=0&size=20" = .ok (.obj fields) →
      truthy (lookupField "content" fields) = false →
      (loadCourses b s).1.courses = .arr []) ∧
    (∀ e, b.get "/courses?page=0&size=20" = .error e →
      (loadCourses b s).1.error = "403 - Admin access required. Please login as admin." ∧
      (loadCourses b s).1.courses = s.courses) := by
  have hfalsy : ∀ fields, b.get "/courses?page=0&size=20" = .ok (.obj fields) →
      truthy (lookupField "content" fields) = false →
      (loadCourses b s).1.courses = .arr [] := by
    intro fields hget hfalse
    simp [loadCourses, loadCoursesResume, hget, courseListOf, isArray, getProp, hfalse]
  have habsent : ∀ fields : List (String × JsVal), (∀ p ∈ fields, p.1 ≠ "content") →
      lookupField "content" fields = .undefined := by
    intro fields
    induction fields with
    | nil => intro _; rfl
    | cons p rest ih =>
      intro h
      obtain ⟨name, v⟩ := p
      have hname : name ≠ "content" := h (name, v) (List.mem_cons_self _ _)
      simp only [lookupField, hname, if_false]
      exact ih (fun p hp => h p (List.mem_cons_of_mem _ hp))
  refine ⟨?_, ?_, ?_, hfalsy, ?_⟩
  · intro xs hget
    simp [loadCourses, loadCoursesResume, hget, courseListOf, isArray]
  · intro fields xs hget hcontent
    simp [loadCourses, loadCoursesResume, hget, courseListOf, isArray, getProp, hcontent, truthy]
  · intro fields hget hno
    exact hfalsy fields hget (by rw [habsent fields hno]; rfl)
  · intro e hget
    simp [loadCourses, loadCoursesResume, hget]

/-- Witness of C9: the sample envelope gives its two courses, and a rejected
request sets the error message and keeps the list. -/
theorem loadCourses_accepts_list_or_envelope_witness :
    envelopeBackend.get "/courses?page=0&size=20" = .ok sampleEnvelope ∧
    (loadCourses envelopeBackend initialState).1.courses =
      .arr [.obj [("id", .num 1), ("title", .str "Lean")],
            .obj [("id", .num 2), ("title", .str "Coq")]] ∧
    (loadCourses failingBackend initialState).1.error =
      "403 - Admin access required. Please login as admin." :=
  ⟨rfl,
    (loadCourses_accepts_list_or_envelope envelopeBackend initialState).2.1 _ _ rfl rfl,
    ((loadCourses_accepts_list_or_envelope failingBackend initialState).2.2.2.2
      (.requestFailed 403) rfl).1⟩

/-! ## Charts (C10) -/

theorem jsMapFrom_length {α β : Type} (f : α → Nat → β) (xs : List α) (start : Nat) :
    (jsMapFrom f xs start).length = xs.length := by
  induction xs generalizing start with
  | nil => rfl
  | cons x xs ih => simp [jsMapFrom, ih]

theorem jsMapFrom_getElem? {α β : Type} (f : α → Nat → β) (xs : List α) (start i : Nat) :
    (jsMapFrom f xs start)[i]? = (xs[i]?).map (fun x => f x (start + i)) := by
  induction xs generalizing start i with
  | nil => simp [jsMapFrom]
  | cons x xs ih =>
    cases i with
    | zero => simp [jsMapFrom]
    | succ i =>
      simp only [jsMapFrom, List.getElem?_cons_succ, ih]
      congr 1
      funext y
      congr 1
      omega

theorem jsMap_getElem? {α β : Type} (f : α → Nat → β) (xs : List α) (i : Nat) :
    (jsMap f xs)[i]? = (xs[i]?).map (fun x => f x i) := by
  simp [jsMap, jsMapFrom_getElem?]

theorem palette_defined (palette : List String) (hlen : palette.length = 6) (i : Nat) :
    i % palette.length < palette.length ∧ ∃ c, palette[i % palette.length]? = some c := by
  have hlt : i % palette.length < palette.length := Nat.mod_lt _ (by omega)
  exact ⟨hlt, palette[i % palette.length], List.getElem?_eq_getElem hlt⟩

/-- C10: for every mapping with n entries, the bar and pie chart data are the
n key/value pairs in entry order, n cells are produced for each chart, the
cell at index i has key "cell-i" and the fill palette[i mod 6] of the
six-colour palette, that palette read is in bounds and defined for every i,
and the fills repeat with period 6. -/
theorem chart_cells_cycle_palette (entries : List (String × JsVal)) :
    (barChartData entries).length = entries.length ∧
    (∀ i : Nat, (barChartData entries)[i]? =
      (entries[i]?).map (fun e : String × JsVal => JsVal.obj [("platform", .str e.1), ("count", e.2)])) ∧
    (pieChartData entries).length = entries.length ∧
    (∀ i : Nat, (pieChartData entries)[i]? =
      (entries[i]?).map (fun e : String × JsVal => JsVal.obj [("name", .str e.1), ("value", e.2)])) ∧
    barColors.length = 6 ∧ pieColors.length = 6 ∧
    (barCells entries).length = entries.length ∧
    (pieCells entries).length = entries.length ∧
    (∀ i : Nat, i < entries.length →
      (barCells entries)[i]? = some ⟨"cell-" ++ toString i, barColors[i % 6]?⟩ ∧
      (pieCells entries)[i]? = some ⟨"cell-" ++ toString i, pieColors[i % 6]?⟩) ∧
    (∀ i : Nat, i % 6 < barColors.length ∧ i % 6 < pieColors.length ∧
      (∃ c, barColors[i % 6]? = some c) ∧ (∃ c, pieColors[i % 6]? = some c)) ∧
    (∀ i : Nat, barColors[(i + 6) % 6]? = barColors[i % 6]? ∧
      pieColors[(i + 6) % 6]? = pieColors[i % 6]?) := by
  refine ⟨by simp [barChartData], ?_, by simp [pieChartData], ?_, rfl, rfl, ?_, ?_, ?_, ?_, ?_⟩
  · intro i
    simp [barChartData]
  · intro i
    simp [pieChartData]
  · simp [barCells, jsMap, jsMapFrom_length]
  · simp [pieCells, jsMap, jsMapFrom_length]
  · intro i hi
    have hb : barColors.length = 6 := rfl
    have hp : pieColors.length = 6 := rfl
    simp [barCells, pieCells, jsMap_getElem?, List.getElem?_eq_getElem hi, hb, hp]
  · intro i
    have hb := palette_defined barColors rfl i
    have hp := palette_defined pieColors rfl i
    exact ⟨hb.1, hp.1, hb.2, hp.2⟩
  · intro i
    simp

/-- Witness of C10: with eight entries the cell at index 7 has the fill at
palette index 1. -/
theorem chart_cells_cycle_palette_witness :
    7 < (List.replicate 8 (("k", JsVal.num 1) : String × JsVal)).length ∧
    (barCells (List.replicate 8 ("k", JsVal.num 1)))[7]? = some ⟨"cell-7", some "#c97c5d"⟩ ∧
    (pieCells (List.replicate 8 ("k", JsVal.num 1)))[7]? = some ⟨"cell-7", some "#2a9d8f"⟩ := by
  have h := (chart_cells_cycle_palette (List.replicate 8 ("k", JsVal.num 1))).2.2.2.2.2.2.2.2.1
    7 (by decide)
  exact ⟨by decide, h.1.trans rfl, h.2.trans rfl⟩

end AdminDashboard
